import Mathlib

/-!
# AdminPanel: the record-management state of `src/AdminPanel.js`

A shallow embedding of the React component `AdminPanel`: its `useState` cells become the
fields of `State`, and every event handler becomes a function from the state a render
closed over to the state after the handler's `set...` calls.

Conventions of the embedding.

* JavaScript strings are Lean `String`s, and `String.prototype.includes` is the substring
  test on their character sequences.
* `String.prototype.toLowerCase` is a built-in of the language, not code of the component:
  it is the parameter `lower` of `fetchUsers`.  `asciiLower` is the instance used to run
  the model on concrete (ASCII) data.
* Array indices, page numbers and array lengths are natural numbers.
* `Math.ceil(n / 10)` is computed in exact rational arithmetic.
-/

namespace AdminPanel

/-! ## Data model -/

/-- One member record of the fetched JSON array. -/
structure User where
  id : Nat
  name : String
  email : String
  role : String
  deriving DecidableEq, Repr

/-- The keys the edit modal passes to `handleInputChange`: "name", "email", "role". -/
inductive Field where
  | name
  | email
  | role
  deriving DecidableEq, Repr

/-- The `useState` cells of the component (lines 10-17). -/
structure State where
  users : List User
  searchTerm : String
  filteredUsers : List User
  selectedUsers : List Nat
  editingUser : Option User
  pageNumber : Nat
  loading : Bool
  error : Option String
  deriving DecidableEq, Repr

/-- The state of the first render: every cell at its `useState` initial value. -/
def initialState : State :=
  { users := [], searchTerm := "", filteredUsers := [], selectedUsers := [],
    editingUser := none, pageNumber := 0, loading := true, error := none }

/-- Line 19: `const usersPerPage = 10`. -/
def usersPerPage : Nat := 10

/-- Line 20: `const pagesVisited = pageNumber * usersPerPage`. -/
def pagesVisited (s : State) : Nat := s.pageNumber * usersPerPage

/-! ## JavaScript built-ins used by the component -/

/-- The scan behind `String.prototype.includes`, on character sequences: is `q` a prefix of
the text at some position of `s`? -/
def includesChars : List Char → List Char → Bool
  | [], q => q.isPrefixOf []
  | c :: s, q => q.isPrefixOf (c :: s) || includesChars s q

/-- The call `s.includes(q)` on strings. -/
def strIncludes (s q : String) : Bool := includesChars s.data q.data

/-- ASCII lower-casing, the behaviour of `toLowerCase` on ASCII text. -/
def asciiLower (s : String) : String := ⟨s.data.map Char.toLower⟩

/-- The call `xs.slice(start, stop)` for `0 ≤ start ≤ stop`. -/
def slice {α : Type} (xs : List α) (start stop : Nat) : List α :=
  (xs.drop start).take (stop - start)

/-- The call `xs.map((x, idx) => f x idx)`, the index counted from `i`. -/
def mapIdxFrom {α β : Type} (f : α → Nat → β) : Nat → List α → List β
  | _, [] => []
  | i, x :: xs => f x i :: mapIdxFrom f (i + 1) xs

/-- The call `xs.filter((x, idx) => p x idx)`, the index counted from `i`. -/
def filterIdxFrom {α : Type} (p : α → Nat → Bool) : Nat → List α → List α
  | _, [] => []
  | i, x :: xs => if p x i then x :: filterIdxFrom p (i + 1) xs else filterIdxFrom p (i + 1) xs

/-- The call `xs.includes(i)` on an array of numbers. -/
def includes (xs : List Nat) (i : Nat) : Bool := xs.contains i

/-! ## Handlers -/

/-- Lines 33-36: the predicate of the search filter. -/
def matchesQuery (lower : String → String) (query : String) (user : User) : Bool :=
  strIncludes (lower user.name) (lower query) ||
  strIncludes (lower user.email) (lower query) ||
  strIncludes (lower user.role) (lower query)

/-- Lines 24-47, `fetchUsers(query)`.  `response` is the outcome of the `axios.get`:
`some data` for a resolved request, `none` for a rejected one (the `catch` branch).
`query ? ... : fetchedUsers` takes the filter branch exactly for a non-empty string. -/
def fetchUsers (lower : String → String) (s : State) (response : Option (List User))
    (query : String) : State :=
  match response with
  | some fetchedUsers =>
    let filtered :=
      if query ≠ "" then fetchedUsers.filter (matchesQuery lower query) else fetchedUsers
    { s with users := fetchedUsers, filteredUsers := filtered, loading := false }
  | none => { s with error := some "Failed to fetch users.", loading := false }

/-- Lines 54-56, `handleSearchInput`. -/
def handleSearchInput (s : State) (value : String) : State :=
  { s with searchTerm := value }

/-- Lines 59-61, `handleSearchClick`. -/
def handleSearchClick (lower : String → String) (s : State) (response : Option (List User)) :
    State :=
  fetchUsers lower s response s.searchTerm

/-- Lines 64-73, `handleSelectAll`; `checked` is `e.target.checked`. -/
def handleSelectAll (s : State) (checked : Bool) : State :=
  if checked then
    let displayedIndexes :=
      mapIdxFrom (fun _ idx => idx + pagesVisited s) 0
        (slice s.filteredUsers (pagesVisited s) (pagesVisited s + usersPerPage))
    { s with selectedUsers := displayedIndexes }
  else
    { s with selectedUsers := [] }

/-- Lines 76-82, `handleCheckboxChange`. -/
def handleCheckboxChange (s : State) (index : Nat) : State :=
  if includes s.selectedUsers index then
    { s with selectedUsers := s.selectedUsers.filter (fun selected => selected ≠ index) }
  else
    { s with selectedUsers := s.selectedUsers ++ [index] }

/-- Lines 85-89, `handleDelete`. -/
def handleDelete (s : State) (id : Nat) : State :=
  let updatedUsers := s.users.filter (fun user => user.id ≠ id)
  { s with users := updatedUsers, filteredUsers := updatedUsers }

/-- Lines 92-99, `deleteSelectedUsers`. -/
def deleteSelectedUsers (s : State) : State :=
  let updatedUsers := filterIdxFrom (fun _ index => !includes s.selectedUsers index) 0 s.users
  { s with users := updatedUsers, filteredUsers := updatedUsers, selectedUsers := [] }

/-- Lines 102-104, `handleEdit`: the buffer is a copy of the record. -/
def handleEdit (s : State) (user : User) : State :=
  { s with editingUser := some user }

/-- The object `{ ...user, [field]: value }`. -/
def setField (user : User) (field : Field) (value : String) : User :=
  match field with
  | Field.name => { user with name := value }
  | Field.email => { user with email := value }
  | Field.role => { user with role := value }

/-- Reading the property `user[field]`. -/
def getField (user : User) (field : Field) : String :=
  match field with
  | Field.name => user.name
  | Field.email => user.email
  | Field.role => user.role

/-- Lines 115-117, `handleInputChange`.  The inputs that call it exist only inside the
modal, which is rendered only while `editingUser` is set (line 222); with no record being
edited there is no call, and the model yields `none`. -/
def handleInputChange (s : State) (field : Field) (value : String) : Option State :=
  match s.editingUser with
  | some editingUser => some { s with editingUser := some (setField editingUser field value) }
  | none => none

/-- Lines 106-113, `handleSave`.  Reading `editingUser.id` of `null` throws, which is the
result `none`; the Save button exists only while `editingUser` is set. -/
def handleSave (s : State) : Option State :=
  match s.editingUser with
  | some editingUser =>
    let updatedUsers := s.users.map (fun user => if user.id = editingUser.id then editingUser else user)
    some { s with users := updatedUsers, filteredUsers := updatedUsers, editingUser := none }
  | none => none

/-- Line 246, the Cancel button: `setEditingUser(null)`. -/
def cancelEdit (s : State) : State :=
  { s with editingUser := none }

/-- Lines 119-122: the rows of the active page, each with the index the render passes to
`selectedUsers.includes` and to `handleCheckboxChange`, and the resulting `isSelected`. -/
def displayUsers (s : State) : List (User × Nat × Bool) :=
  mapIdxFrom (fun user index => (user, index, includes s.selectedUsers index)) 0
    (slice s.filteredUsers (pagesVisited s) (pagesVisited s + usersPerPage))

/-- Line 148: `Math.ceil(filteredUsers.length / usersPerPage)`. -/
def pageCount (s : State) : Nat :=
  Nat.ceil ((s.filteredUsers.length : ℚ) / (usersPerPage : ℚ))

/-- Lines 150-152, `changePage`. -/
def changePage (s : State) (selected : Nat) : State :=
  { s with pageNumber := selected }

/-! ## Sample data -/

/-- The first record of the scenario of the specification. -/
def alice : User := { id := 1, name := "Alice", email := "a@x.com", role := "Admin" }

/-- The second record of the scenario of the specification. -/
def bob : User := { id := 2, name := "Bob", email := "b@x.com", role := "User" }

/-- The state after the initial load of `[alice, bob]`. -/
def loaded : State := fetchUsers asciiLower initialState (some [alice, bob]) ""

/-- The state after searching "admin" in `loaded`. -/
def searchedAdmin : State :=
  handleSearchClick asciiLower (handleSearchInput loaded "admin") (some [alice, bob])

/-- The state after searching "user" in `loaded`. -/
def searchedUser : State :=
  handleSearchClick asciiLower (handleSearchInput loaded "user") (some [alice, bob])

/-- The state after ticking the checkbox of the only row shown in `searchedUser`. -/
def searchedUserTicked : State := handleCheckboxChange searchedUser 0

/-- The state after ticking the checkbox of row 0 in `loaded`. -/
def loadedTicked : State := handleCheckboxChange loaded 0

/-- A member record with the given id. -/
def member (n : Nat) : User := { id := n, name := "Member", email := "m@x.com", role := "member" }

/-- Eleven member records, ids 1 to 11. -/
def elevenUsers : List User := (List.range' 1 11).map member

/-- The state after loading `elevenUsers` and moving to the second page. -/
def secondPage : State :=
  changePage (fetchUsers asciiLower initialState (some elevenUsers) "") 1

/-! ## JavaScript built-ins: basic facts -/

theorem includesChars_iff (s q : List Char) : includesChars s q = true ↔ q <:+: s := by
  induction s with
  | nil =>
    cases q <;> simp [includesChars, List.isPrefixOf]
  | cons c s ih =>
    simp only [includesChars, Bool.or_eq_true, ih, List.isPrefixOf_iff_prefix,
      List.infix_cons_iff]

theorem strIncludes_iff (s q : String) : strIncludes s q = true ↔ q.data <:+: s.data :=
  includesChars_iff s.data q.data

theorem length_slice {α : Type} (xs : List α) (start stop : Nat) :
    (slice xs start stop).length = min (stop - start) (xs.length - start) := by
  simp [slice]

theorem length_mapIdxFrom {α β : Type} (f : α → Nat → β) (i : Nat) (xs : List α) :
    (mapIdxFrom f i xs).length = xs.length := by
  induction xs generalizing i with
  | nil => rfl
  | cons x xs ih => simp [mapIdxFrom, ih]

theorem mapIdxFrom_add_eq_range' {α : Type} (c i : Nat) (xs : List α) :
    mapIdxFrom (fun _ idx => idx + c) i xs = List.range' (i + c) xs.length := by
  induction xs generalizing i with
  | nil => rfl
  | cons x xs ih =>
    simp only [mapIdxFrom, List.length_cons, List.range'_succ, ih]
    congr 2
    omega

theorem matchesQuery_iff (lower : String → String) (query : String) (user : User) :
    matchesQuery lower query user = true ↔
      ((lower query).data <:+: (lower user.name).data ∨
        (lower query).data <:+: (lower user.email).data ∨
        (lower query).data <:+: (lower user.role).data) := by
  simp [matchesQuery, strIncludes_iff, or_assoc]

theorem pageCount_le_iff (s : State) (n : Nat) :
    pageCount s ≤ n ↔ s.filteredUsers.length ≤ 10 * n := by
  unfold pageCount usersPerPage
  rw [Nat.ceil_le, div_le_iff₀ (by norm_num)]
  constructor
  · intro h
    have h2 : ((s.filteredUsers.length : ℕ) : ℚ) ≤ ((n * 10 : ℕ) : ℚ) := by
      push_cast
      exact h
    have h3 := Nat.cast_le.mp h2
    omega
  · intro h
    have h2 : ((s.filteredUsers.length : ℕ) : ℚ) ≤ ((n * 10 : ℕ) : ℚ) :=
      Nat.cast_le.mpr (by omega)
    push_cast at h2
    exact h2

theorem setField_id (user : User) (field : Field) (value : String) :
    (setField user field value).id = user.id := by
  cases field <;> rfl

theorem getField_setField_same (user : User) (field : Field) (value : String) :
    getField (setField user field value) field = value := by
  cases field <;> rfl

theorem getField_setField_other (user : User) (field other : Field) (value : String)
    (h : other ≠ field) : getField (setField user field value) other = getField user other := by
  cases field <;> cases other <;> first | rfl | exact absurd rfl h

/-! ## Search -/

/-- C1: on a resolved request `fetchUsers(q)` sets the filtered view to the records of the
fetched collection, in its order, whose lower-cased name, email or role contains the
lower-cased query; for the empty query the filtered view is the fetched collection. -/
theorem C1_search_filter (lower : String → String) (hlower : lower "" = "") (s : State)
    (C : List User) (q : String) :
    (fetchUsers lower s (some C) q).filteredUsers =
        C.filter (fun u => decide ((lower q).data <:+: (lower u.name).data ∨
          (lower q).data <:+: (lower u.email).data ∨
          (lower q).data <:+: (lower u.role).data)) ∧
      List.Sublist (fetchUsers lower s (some C) q).filteredUsers C ∧
      (q = "" → (fetchUsers lower s (some C) q).filteredUsers = C) := by
  have hfilter : ∀ query : String, C.filter (matchesQuery lower query) =
      C.filter (fun u => decide ((lower query).data <:+: (lower u.name).data ∨
          (lower query).data <:+: (lower u.email).data ∨
          (lower query).data <:+: (lower u.role).data)) := by
    intro query
    apply List.filter_congr
    intro u _
    rw [Bool.eq_iff_iff, matchesQuery_iff, decide_eq_true_iff]
  have hfirst : (fetchUsers lower s (some C) q).filteredUsers =
      C.filter (fun u => decide ((lower q).data <:+: (lower u.name).data ∨
          (lower q).data <:+: (lower u.email).data ∨
          (lower q).data <:+: (lower u.role).data)) := by
    by_cases hq : q = ""
    · subst hq
      have hall : ∀ u ∈ C, (fun u : User => decide ((lower "").data <:+: (lower u.name).data ∨
          (lower "").data <:+: (lower u.email).data ∨
          (lower "").data <:+: (lower u.role).data)) u = true := by
        intro u _
        simp [hlower]
      simp only [fetchUsers, ne_eq, not_true_eq_false, if_false]
      exact (List.filter_eq_self.mpr hall).symm
    · simp only [fetchUsers, ne_eq, hq, not_false_eq_true, if_true]
      exact hfilter q
  refine ⟨hfirst, ?_, ?_⟩
  · rw [hfirst]
    exact List.filter_sublist C
  · intro hq
    simp [fetchUsers, hq]

/-- Witness of C1: searching "admin" over the two sample records. -/
theorem C1_search_filter_witness :
    asciiLower "" = "" ∧
      ((fetchUsers asciiLower initialState (some [alice, bob]) "admin").filteredUsers =
        [alice, bob].filter (fun u =>
          decide ((asciiLower "admin").data <:+: (asciiLower u.name).data ∨
            (asciiLower "admin").data <:+: (asciiLower u.email).data ∨
            (asciiLower "admin").data <:+: (asciiLower u.role).data)) ∧
      List.Sublist (fetchUsers asciiLower initialState (some [alice, bob]) "admin").filteredUsers
        [alice, bob] ∧
      ("admin" = "" →
        (fetchUsers asciiLower initialState (some [alice, bob]) "admin").filteredUsers =
          [alice, bob])) :=
  ⟨by decide, C1_search_filter asciiLower (by decide) initialState [alice, bob] "admin"⟩

/-- C8 as stated fails: a search issued while row 0 is ticked replaces the collection and
the filtered view and keeps the selection `[0]`. -/
theorem C8_load_keeps_selection_counterexample :
    (fetchUsers asciiLower loadedTicked (some [alice, bob]) "admin").users = [alice, bob] ∧
      (fetchUsers asciiLower loadedTicked (some [alice, bob]) "admin").filteredUsers = [alice] ∧
      (fetchUsers asciiLower loadedTicked (some [alice, bob]) "admin").selectedUsers = [0] ∧
      (fetchUsers asciiLower loadedTicked (some [alice, bob]) "admin").selectedUsers ≠ [] := by
  decide

/-- C8, amended: on a resolved request `fetchUsers(q)` replaces the collection with the
fetched records and the filtered view with the fetched records filtered by the query, and
leaves the selection, the page number, the search term and the edit buffer as they were. -/
theorem C8_load_replaces (lower : String → String) (s : State) (C : List User) (q : String) :
    (fetchUsers lower s (some C) q).users = C ∧
      (fetchUsers lower s (some C) q).filteredUsers =
        (if q = "" then C else C.filter (matchesQuery lower q)) ∧
      (fetchUsers lower s (some C) q).selectedUsers = s.selectedUsers ∧
      (fetchUsers lower s (some C) q).pageNumber = s.pageNumber ∧
      (fetchUsers lower s (some C) q).searchTerm = s.searchTerm ∧
      (fetchUsers lower s (some C) q).editingUser = s.editingUser := by
  refine ⟨rfl, ?_, rfl, rfl, rfl, rfl⟩
  by_cases hq : q = "" <;> simp [fetchUsers, hq]

/-! ## Deletion -/

/-- C2: with unique ids in the collection, after `handleDelete(id)` no record with that id
is left in the collection or in the filtered view, and the collection is one record
shorter when the id was present and as long as before when it was absent. -/
theorem C2_delete_one (s : State) (id : Nat) (hnodup : (s.users.map (fun u => u.id)).Nodup) :
    (∀ u ∈ (handleDelete s id).users, u.id ≠ id) ∧
      (∀ u ∈ (handleDelete s id).filteredUsers, u.id ≠ id) ∧
      ((∃ u ∈ s.users, u.id = id) →
        (handleDelete s id).users.length + 1 = s.users.length) ∧
      ((¬ ∃ u ∈ s.users, u.id = id) →
        (handleDelete s id).users.length = s.users.length) := by
  have hmem : ∀ u ∈ s.users.filter (fun user => decide (user.id ≠ id)), u.id ≠ id := by
    intro u hu
    simpa using (List.mem_filter.mp hu).2
  refine ⟨hmem, hmem, ?_, ?_⟩
  · rintro ⟨u, hu, rfl⟩
    show (s.users.filter (fun user => decide (user.id ≠ u.id))).length + 1 = s.users.length
    generalize s.users = l at hnodup hu
    induction l with
    | nil => cases hu
    | cons a l ih =>
      rw [List.map_cons, List.nodup_cons] at hnodup
      by_cases ha : a.id = u.id
      · have hrest : l.filter (fun user => decide (user.id ≠ u.id)) = l := by
          apply List.filter_eq_self.mpr
          intro w hw
          have hne : w.id ≠ u.id := by
            intro hEq
            exact hnodup.1 (List.mem_map.mpr ⟨w, hw, by rw [hEq, ha]⟩)
          simpa using hne
        have hd : decide (a.id ≠ u.id) = false := by simpa using ha
        rw [List.filter_cons, hd, if_neg Bool.false_ne_true, hrest, List.length_cons]
      · have hul : u ∈ l := by
          rcases List.mem_cons.mp hu with h | h
          · exact absurd (by rw [h]) ha
          · exact h
        have hd : decide (a.id ≠ u.id) = true := by simpa using ha
        rw [List.filter_cons, hd, if_pos rfl, List.length_cons, ih hnodup.2 hul,
          List.length_cons]
  · intro habs
    show (s.users.filter (fun user => decide (user.id ≠ id))).length = s.users.length
    have hall : s.users.filter (fun user => decide (user.id ≠ id)) = s.users := by
      apply List.filter_eq_self.mpr
      intro w hw
      have hne : w.id ≠ id := fun hEq => habs ⟨w, hw, hEq⟩
      simpa using hne
    rw [hall]

/-- Witness of C2: deleting id 1 from the loaded sample collection. -/
theorem C2_delete_one_witness :
    (loaded.users.map (fun u => u.id)).Nodup ∧
      ((∀ u ∈ (handleDelete loaded 1).users, u.id ≠ 1) ∧
      (∀ u ∈ (handleDelete loaded 1).filteredUsers, u.id ≠ 1) ∧
      ((∃ u ∈ loaded.users, u.id = 1) →
        (handleDelete loaded 1).users.length + 1 = loaded.users.length) ∧
      ((¬ ∃ u ∈ loaded.users, u.id = 1) →
        (handleDelete loaded 1).users.length = loaded.users.length)) :=
  ⟨by decide, C2_delete_one loaded 1 (by decide)⟩

/-- C5, the code at the failing input: after searching "admin" the filtered view is
`[alice]`; `handleDelete(1)` then leaves the filtered view `[bob]`, the whole remaining
collection, where the former filtered view without id 1 is empty. -/
theorem C5_delete_resets_filter :
    searchedAdmin.users = [alice, bob] ∧
      searchedAdmin.filteredUsers = [alice] ∧
      (handleDelete searchedAdmin 1).filteredUsers = [bob] ∧
      searchedAdmin.filteredUsers.filter (fun user => user.id ≠ 1) = [] := by
  decide

/-- C3, the code at the failing input: after searching "user" the filtered view is `[bob]`;
with row 0 ticked, `deleteSelectedUsers` removes `alice` (index 0 of the collection) and
keeps `bob` (index 0 of the filtered view) in both lists.  In the scenario of the
specification (search "admin", selection `[0]`) the remaining collection is `[bob]`. -/
theorem C3_delete_selected_indexes_collection :
    searchedUserTicked.users = [alice, bob] ∧
      searchedUserTicked.filteredUsers = [bob] ∧
      searchedUserTicked.selectedUsers = [0] ∧
      (deleteSelectedUsers searchedUserTicked).users = [bob] ∧
      (deleteSelectedUsers searchedUserTicked).filteredUsers = [bob] ∧
      (deleteSelectedUsers searchedUserTicked).selectedUsers = [] ∧
      (deleteSelectedUsers (handleSelectAll searchedAdmin true)).users = [bob] := by
  decide

/-! ## Editing -/

/-- C4: with unique ids in the collection and `r` one of its records, `handleEdit(r)`,
`handleInputChange(f, v)` and `handleSave` run to completion and leave a collection of the
same length with the same ids in the same order, still unique; a record with id `r.id`
is present, and every such record has field `f` equal to `v` and its other fields equal to
those of `r`; every record with another id stays at its position unchanged; the edit
buffer is empty. -/
theorem C4_edit_round_trip (s : State) (r : User) (f : Field) (v : String)
    (hnodup : (s.users.map (fun u => u.id)).Nodup) (hr : r ∈ s.users) :
    ∃ s3, (handleInputChange (handleEdit s r) f v).bind handleSave = some s3 ∧
      s3.users.length = s.users.length ∧
      s3.users.map (fun u => u.id) = s.users.map (fun u => u.id) ∧
      (s3.users.map (fun u => u.id)).Nodup ∧
      (∃ u ∈ s3.users, u.id = r.id) ∧
      (∀ u ∈ s3.users, u.id = r.id →
        getField u f = v ∧ ∀ g, g ≠ f → getField u g = getField r g) ∧
      (∀ (i : Nat) (u : User), s.users[i]? = some u → u.id ≠ r.id → s3.users[i]? = some u) ∧
      s3.editingUser = none := by
  have hids : (s.users.map (fun user =>
      if user.id = (setField r f v).id then setField r f v else user)).map (fun u => u.id) =
      s.users.map (fun u => u.id) := by
    rw [List.map_map]
    apply List.map_congr_left
    intro u _
    by_cases hu : u.id = (setField r f v).id
    · simp [hu]
    · simp [hu]
  refine ⟨_, rfl, ?_, hids, ?_, ?_, ?_, ?_, rfl⟩
  · show (s.users.map (fun user =>
      if user.id = (setField r f v).id then setField r f v else user)).length = s.users.length
    rw [List.length_map]
  · show ((s.users.map (fun user =>
      if user.id = (setField r f v).id then setField r f v else user)).map
        (fun u => u.id)).Nodup
    rw [hids]
    exact hnodup
  · refine ⟨setField r f v, ?_, setField_id r f v⟩
    exact List.mem_map.mpr ⟨r, hr, by simp [setField_id]⟩
  · intro u hu hid
    obtain ⟨a, _, ha⟩ := List.mem_map.mp hu
    by_cases hcond : a.id = (setField r f v).id
    · rw [if_pos hcond] at ha
      subst ha
      exact ⟨getField_setField_same r f v, fun g hg => getField_setField_other r f g v hg⟩
    · rw [if_neg hcond] at ha
      subst ha
      rw [setField_id] at hcond
      exact absurd hid hcond
  · intro i u hi hne
    show (s.users.map (fun user =>
      if user.id = (setField r f v).id then setField r f v else user))[i]? = some u
    rw [List.getElem?_map, hi, Option.map_some', setField_id, if_neg hne]

/-- Witness of C4: renaming the second sample record. -/
theorem C4_edit_round_trip_witness :
    (loaded.users.map (fun u => u.id)).Nodup ∧ bob ∈ loaded.users ∧
      ∃ s3, (handleInputChange (handleEdit loaded bob) Field.name "Robert").bind handleSave =
          some s3 ∧
        s3.users.length = loaded.users.length ∧
        s3.users.map (fun u => u.id) = loaded.users.map (fun u => u.id) ∧
        (s3.users.map (fun u => u.id)).Nodup ∧
        (∃ u ∈ s3.users, u.id = bob.id) ∧
        (∀ u ∈ s3.users, u.id = bob.id →
          getField u Field.name = "Robert" ∧
            ∀ g, g ≠ Field.name → getField u g = getField bob g) ∧
        (∀ (i : Nat) (u : User), loaded.users[i]? = some u → u.id ≠ bob.id →
          s3.users[i]? = some u) ∧
        s3.editingUser = none :=
  ⟨by decide, by decide,
    C4_edit_round_trip loaded bob Field.name "Robert" (by decide) (by decide)⟩

/-! ## Pagination -/

/-- C6: the rows rendered for page `pageNumber` are at most 10, exactly
`min(10, max(0, L - 10 * pageNumber))` for a filtered view of length `L`, and `pageCount`
is the ceiling of `L / 10`: it equals `(L + 9) / 10` in integer division, it is the least
`n` with `L ≤ 10 * n`, and it is 0 when `L = 0`. -/
theorem C6_page_bounds (s : State) :
    (displayUsers s).length ≤ 10 ∧
      (((displayUsers s).length : Int) =
        min 10 (max 0 ((s.filteredUsers.length : Int) - 10 * (s.pageNumber : Int)))) ∧
      pageCount s = (s.filteredUsers.length + 9) / 10 ∧
      (∀ n : Nat, pageCount s ≤ n ↔ s.filteredUsers.length ≤ 10 * n) ∧
      (s.filteredUsers.length = 0 → pageCount s = 0) := by
  have hlen : (displayUsers s).length =
      min 10 (s.filteredUsers.length - s.pageNumber * 10) := by
    simp [displayUsers, length_mapIdxFrom, length_slice, pagesVisited, usersPerPage]
  have hself := (pageCount_le_iff s (pageCount s)).mp (le_refl _)
  have hdiv := (pageCount_le_iff s ((s.filteredUsers.length + 9) / 10)).mpr (by omega)
  refine ⟨?_, ?_, ?_, pageCount_le_iff s, ?_⟩
  · omega
  · omega
  · omega
  · intro h0
    have := (pageCount_le_iff s 0).mpr (by omega)
    omega

/-! ## Selection -/

/-- C7: after `handleSelectAll` with the box checked the selection holds exactly the
indices `i` with `10 * pageNumber ≤ i < min(10 * pageNumber + 10, L)`, each once; its size
is `min(10, L - 10 * pageNumber)`, the rows left from the start of the page, and every
index satisfies `0 ≤ i - pagesVisited < usersPerPage`; with the box unchecked the selection
is empty. -/
theorem C7_select_all (s : State) :
    (∀ i : Nat, i ∈ (handleSelectAll s true).selectedUsers ↔
        (10 * s.pageNumber ≤ i ∧ i < min (10 * s.pageNumber + 10) s.filteredUsers.length)) ∧
      (handleSelectAll s true).selectedUsers.Nodup ∧
      (handleSelectAll s true).selectedUsers.length =
        min 10 (s.filteredUsers.length - 10 * s.pageNumber) ∧
      (∀ i ∈ (handleSelectAll s true).selectedUsers,
        (0 : Int) ≤ (i : Int) - (pagesVisited s : Int) ∧
          (i : Int) - (pagesVisited s : Int) < (usersPerPage : Int)) ∧
      (handleSelectAll s false).selectedUsers = [] := by
  have hsel : (handleSelectAll s true).selectedUsers =
      List.range' (s.pageNumber * 10) (min 10 (s.filteredUsers.length - s.pageNumber * 10)) := by
    simp [handleSelectAll, mapIdxFrom_add_eq_range', length_slice, pagesVisited, usersPerPage]
  refine ⟨?_, ?_, ?_, ?_, rfl⟩
  · intro i
    rw [hsel, List.mem_range'_1]
    omega
  · rw [hsel]
    exact List.nodup_range' _ _
  · rw [hsel, List.length_range']
    omega
  · intro i hi
    rw [hsel, List.mem_range'_1] at hi
    simp only [pagesVisited, usersPerPage]
    omega

/-- C9: on a duplicate-free selection `handleCheckboxChange(i)` flips the membership of
`i`, keeps the membership of every other index, and keeps the selection duplicate-free;
toggling `i` twice gives a selection with the members of the original one. -/
theorem C9_toggle_select (s : State) (i : Nat) (hnodup : s.selectedUsers.Nodup) :
    (i ∈ (handleCheckboxChange s i).selectedUsers ↔ i ∉ s.selectedUsers) ∧
      (∀ j : Nat, j ≠ i →
        (j ∈ (handleCheckboxChange s i).selectedUsers ↔ j ∈ s.selectedUsers)) ∧
      (handleCheckboxChange s i).selectedUsers.Nodup ∧
      (∀ j : Nat, j ∈ (handleCheckboxChange (handleCheckboxChange s i) i).selectedUsers ↔
        j ∈ s.selectedUsers) := by
  have hflip : ∀ (t : State),
      (i ∈ (handleCheckboxChange t i).selectedUsers ↔ i ∉ t.selectedUsers) ∧
      (∀ j : Nat, j ≠ i →
        (j ∈ (handleCheckboxChange t i).selectedUsers ↔ j ∈ t.selectedUsers)) := by
    intro t
    by_cases hmem : i ∈ t.selectedUsers
    · have hinc : includes t.selectedUsers i = true := by simpa [includes] using hmem
      constructor
      · simp [handleCheckboxChange, hinc, hmem]
      · intro j hj
        simp [handleCheckboxChange, hinc, hj]
    · have hinc : includes t.selectedUsers i = false := by simpa [includes] using hmem
      constructor
      · simp [handleCheckboxChange, hinc, hmem]
      · intro j hj
        simp [handleCheckboxChange, hinc, hj]
  refine ⟨(hflip s).1, (hflip s).2, ?_, ?_⟩
  · by_cases hmem : i ∈ s.selectedUsers
    · have hinc : includes s.selectedUsers i = true := by simpa [includes] using hmem
      simp only [handleCheckboxChange, hinc, if_true]
      exact hnodup.filter _
    · have hinc : includes s.selectedUsers i = false := by simpa [includes] using hmem
      simp only [handleCheckboxChange, hinc, Bool.false_eq_true, if_false]
      exact List.Nodup.append hnodup (List.nodup_singleton i) (by simpa using hmem)
  · intro j
    by_cases hj : j = i
    · subst hj
      rw [(hflip (handleCheckboxChange s j)).1, (hflip s).1, not_not]
    · rw [(hflip (handleCheckboxChange s i)).2 j hj, (hflip s).2 j hj]

/-- Witness of C9: toggling index 1 in the selection `[0]`. -/
theorem C9_toggle_select_witness :
    loadedTicked.selectedUsers.Nodup ∧
      ((1 ∈ (handleCheckboxChange loadedTicked 1).selectedUsers ↔
          1 ∉ loadedTicked.selectedUsers) ∧
      (∀ j : Nat, j ≠ 1 →
        (j ∈ (handleCheckboxChange loadedTicked 1).selectedUsers ↔
          j ∈ loadedTicked.selectedUsers)) ∧
      (handleCheckboxChange loadedTicked 1).selectedUsers.Nodup ∧
      (∀ j : Nat,
        j ∈ (handleCheckboxChange (handleCheckboxChange loadedTicked 1) 1).selectedUsers ↔
          j ∈ loadedTicked.selectedUsers)) :=
  ⟨by decide, C9_toggle_select loadedTicked 1 (by decide)⟩

/-- C10, the code at the failing input: with eleven records and the second page active,
`handleSelectAll` with the box checked sets the selection to `[10]`, while the render gives
the only row of the page the index 0 and tests `selectedUsers.includes(0)`: the row is
rendered unselected, and the selected index 10 is the index of no rendered row. -/
theorem C10_select_all_render_mismatch :
    (handleSelectAll secondPage true).selectedUsers = [10] ∧
      displayUsers (handleSelectAll secondPage true) = [(member 11, 0, false)] ∧
      (displayUsers (handleSelectAll secondPage true)).map (fun row => row.2.1) = [0] := by
  decide

end AdminPanel
